import Mathlib

/-!
Verification of the contact-management HTTP service in src/server.js.

The service is an Express application backed by a Mongoose model.  Each
route handler is embedded here as a pure function from a store state (a
list of persisted Contact documents) and the request data to a response
together with the next store state.  JavaScript and Mongoose behaviour
that the handlers rely on is embedded explicitly:

- string trimming and lower-casing (the trim and lowercase schema
  setters) are modelled over the character list of the string;
- the email match validator uses the regular expression .+@.+\..+ in an
  unanchored test; it is embedded by a scanner over the character list
  in which the dot metacharacter matches every character except the
  JavaScript line terminators;
- the search parameter of the list route is compiled by the code with
  new RegExp(search, "i") and tested against the name field; this is
  embedded for the fragment of patterns built from literal characters
  and the dot metacharacter, which covers every pattern used in the
  theorems below;
- the case-insensitive collation sort (locale en, strength 2) is
  embedded as a stable insertion sort on the lower-cased code points of
  the name field;
- the identifier cast performed by findByIdAndUpdate and
  findByIdAndDelete is embedded by a syntactic ObjectId validity check
  (a 24 character hexadecimal string, or a 12 character string); a cast
  failure raises an error that matches neither the ValidationError
  branch nor the duplicate-key branch of the handlers, hence a 500
  response.
-/

/-- A persisted Contact document: the fields of contactSchema plus the
store assigned identifier and the automatic timestamps. -/
structure Contact where
  id : String
  name : String
  email : String
  phone : String
  createdAt : Nat
  updatedAt : Nat
deriving DecidableEq

/-- The store state: the collection of persisted Contact documents. -/
abbrev Store := List Contact

/-- Body of an HTTP response of the service. -/
inductive RespBody where
  | contacts (cs : List Contact)
  | contact (c : Contact)
  | message (m : String)
deriving DecidableEq

/-- An HTTP response: status code and JSON body. -/
structure Response where
  status : Nat
  body : RespBody
deriving DecidableEq

/-- The contact list carried by a response (empty for non-list bodies). -/
def respContacts (r : Response) : List Contact :=
  match r.body with
  | RespBody.contacts cs => cs
  | _ => []

/-- Whitespace in the sense of the JavaScript trim operation (the ASCII
whitespace characters and the no-break space). -/
def isWsChar (c : Char) : Bool :=
  c == ' ' || c == '\t' || c == '\n' || c == '\r' || c == '\x0b' || c == '\x0c' || c == '\u00A0'

/-- JavaScript string trim: drop whitespace from both ends. -/
def jsTrim (s : String) : String :=
  ⟨((s.data.dropWhile isWsChar).reverse.dropWhile isWsChar).reverse⟩

/-- Lower-casing of a character list. -/
def lowerL (l : List Char) : List Char :=
  l.map Char.toLower

/-- JavaScript toLowerCase, as applied by the lowercase schema setter. -/
def jsLower (s : String) : String :=
  ⟨lowerL s.data⟩

/-- Truthiness of a request body field: JavaScript treats an absent
field and the empty string as falsy in the handler presence checks. -/
def jsPresent : Option String → Bool
  | none => false
  | some s => !(s == "")

/-- The value stored for the name field: the trim setter applied to the
request value. -/
def normName (n : Option String) : String :=
  jsTrim (n.getD "")

/-- The value stored for the email field: the trim and lowercase setters
applied to the request value. -/
def normEmail (e : Option String) : String :=
  jsLower (jsTrim (e.getD ""))

/-- The value stored for the phone field: the trim setter applied to the
request value. -/
def normPhone (p : Option String) : String :=
  jsTrim (p.getD "")

/-- The dot metacharacter of a JavaScript regular expression matches
every character except the line terminators. -/
def dotMatch (c : Char) : Bool :=
  !(c == '\n') && !(c == '\r') && !(c == '\u2028') && !(c == '\u2029')

/-- Scanner for the trailing .+ of the email pattern: at least one
dot-matchable character must follow. -/
def headDot : List Char → Bool
  | [] => false
  | c :: _ => dotMatch c

/-- Scanner for the part of the email pattern after the first matched
character of the middle .+ : skip dot-matchable characters until a
literal dot followed by a dot-matchable character. -/
def dotTail : List Char → Bool
  | [] => false
  | c :: rest => (c == '.' && headDot rest) || (dotMatch c && dotTail rest)

/-- Scanner for the middle .+\..+ of the email pattern: at least one
dot-matchable character, then a literal dot, then at least one
dot-matchable character. -/
def midScan : List Char → Bool
  | [] => false
  | c :: rest => dotMatch c && dotTail rest

/-- Scanner for the @.+\..+ part of the email pattern. -/
def headAt : List Char → Bool
  | [] => false
  | c :: rest => c == '@' && midScan rest

/-- Unanchored test of the email pattern .+@.+\..+ : at some position a
dot-matchable character is followed by an at sign and the middle
scanner succeeds on the rest. -/
def atScan : List Char → Bool
  | [] => false
  | c :: rest => (dotMatch c && headAt rest) || atScan rest

/-- The match validator of the email field: the unanchored test of the
regular expression .+@.+\..+ on the stored value. -/
def jsEmailTest (s : String) : Bool :=
  atScan s.data

/-- The required check of the name field on the stored value. -/
def nameOk (v : String) : Bool :=
  !(v == "")

/-- Validation of the stored email value: the required check followed by
the match validator. -/
def emailOk (v : String) : Bool :=
  !(v == "") && jsEmailTest v

/-- Validation of the stored phone value: the custom validator testing
the anchored regular expression of exactly ten decimal digits. -/
def phoneOk (v : String) : Bool :=
  v.data.length == 10 && v.data.all (fun c => c.isDigit)

/-- The message of a Mongoose ValidationError, assembled from the
per-field messages of contactSchema. -/
def validationMessage (n e p : String) : String :=
  "Contact validation failed: " ++ String.intercalate ", "
    ((if nameOk n then [] else ["Name is required."]) ++
     (if emailOk e then [] else
        if e == "" then ["Email is required."]
        else ["Please enter a valid email address."]) ++
     (if phoneOk p then [] else [p ++ " is not a valid 10-digit phone number!"]))

/-- A hexadecimal digit in either case. -/
def isHexChar (c : Char) : Bool :=
  c.isDigit || ('a' ≤ c && c ≤ 'f') || ('A' ≤ c && c ≤ 'F')

/-- Syntactic validity of a store identifier: the strings Mongoose can
cast to an ObjectId, namely 24 character hexadecimal strings and 12
character strings. -/
def isValidObjectId (id : String) : Bool :=
  id.data.length == 12 || (id.data.length == 24 && id.data.all isHexChar)

/-- A regular-expression metacharacter of JavaScript.  Patterns free of
these characters match literally. -/
def metaChar (c : Char) : Bool :=
  c == '.' || c == '*' || c == '+' || c == '?' || c == '(' || c == ')' ||
  c == '[' || c == ']' || c == '\x7b' || c == '\x7d' || c == '|' ||
  c == '^' || c == '$' || c == '\\'

/-- Match of one pattern character against one subject character under
the i flag: the dot metacharacter matches dot-matchable characters, a
literal character matches up to case. -/
def charMatches (p c : Char) : Bool :=
  if p == '.' then dotMatch c else p.toLower == c.toLower

/-- The pattern matches a prefix of the subject, character by
character. -/
def matchesAt : List Char → List Char → Bool
  | [], _ => true
  | _ :: _, [] => false
  | p :: ps, c :: cs => charMatches p c && matchesAt ps cs

/-- Unanchored regular-expression search, for patterns built from
literal characters and the dot metacharacter: the pattern matches at
some position of the subject. -/
def regexSearch (pat : List Char) : List Char → Bool
  | [] => matchesAt pat []
  | c :: cs => matchesAt pat (c :: cs) || regexSearch pat cs

/-- The collation key of a name under locale en strength 2: the
lower-cased code points. -/
def ciKey (s : String) : List Nat :=
  s.data.map (fun c => c.toLower.toNat)

/-- Lexicographic order on collation keys. -/
def keyLe : List Nat → List Nat → Bool
  | [], _ => true
  | _ :: _, [] => false
  | a :: as, b :: bs => decide (a < b) || (a == b && keyLe as bs)

/-- Order of the collation sort: comparison of the collation keys of
the name fields. -/
def nameLe (a b : Contact) : Bool :=
  keyLe (ciKey a.name) (ciKey b.name)

/-- Ordered insertion for the collation sort. -/
def insertCI (c : Contact) : List Contact → List Contact
  | [] => [c]
  | d :: ds => if nameLe c d then c :: d :: ds else d :: insertCI c ds

/-- The collation sort applied by the list route: sort by name
ascending under the case-insensitive collation. -/
def sortCI : List Contact → List Contact
  | [] => []
  | c :: cs => insertCI c (sortCI cs)

/-- The query built by the list route: no filter without a truthy
search parameter, otherwise the case-insensitive regular expression
built from the search string, tested against the name field. -/
def searchFilter (store : Store) (search : Option String) : Store :=
  match search with
  | none => store
  | some s => if s == "" then store else store.filter (fun c => regexSearch s.data c.name.data)

/-- GET /api/contacts: find with the optional name filter, sorted by
name under the case-insensitive collation. -/
def listContacts (store : Store) (search : Option String) : Response :=
  ⟨200, RespBody.contacts (sortCI (searchFilter store search))⟩

/-- POST /api/contacts: presence check, then schema validation, then
the save that the unique index on phone can reject with a duplicate-key
error, then insertion of the new document. -/
def createContact (store : Store) (now : Nat) (newId : String)
    (name email phone : Option String) : Response × Store :=
  if !(jsPresent name && jsPresent email && jsPresent phone) then
    (⟨400, RespBody.message "Name, email, and phone fields are required."⟩, store)
  else if !(nameOk (normName name) && emailOk (normEmail email) && phoneOk (normPhone phone)) then
    (⟨400, RespBody.message (validationMessage (normName name) (normEmail email) (normPhone phone))⟩, store)
  else if store.any (fun c => c.phone == normPhone phone) then
    (⟨409, RespBody.message "This phone number is already registered."⟩, store)
  else
    (⟨201, RespBody.contact ⟨newId, normName name, normEmail email, normPhone phone, now, now⟩⟩,
      store ++ [⟨newId, normName name, normEmail email, normPhone phone, now, now⟩])

/-- PUT /api/contacts/:id: presence check, then the identifier cast of
findByIdAndUpdate (a cast failure matches neither error branch of the
handler, hence 500), then the update validators, then the lookup of the
target, then the duplicate-key check of the unique index against the
other documents, then the replacement of name, email and phone with a
refreshed updatedAt. -/
def updateContact (store : Store) (now : Nat) (id : String)
    (name email phone : Option String) : Response × Store :=
  if !(jsPresent name && jsPresent email && jsPresent phone) then
    (⟨400, RespBody.message "Name, email, and phone are required."⟩, store)
  else if !(isValidObjectId id) then
    (⟨500, RespBody.message "Error updating contact"⟩, store)
  else if !(nameOk (normName name) && emailOk (normEmail email) && phoneOk (normPhone phone)) then
    (⟨400, RespBody.message (validationMessage (normName name) (normEmail email) (normPhone phone))⟩, store)
  else
    match store.find? (fun c => c.id == id) with
    | none => (⟨404, RespBody.message "Contact not found"⟩, store)
    | some c =>
      if store.any (fun d => d.phone == normPhone phone && !(d.id == id)) then
        (⟨409, RespBody.message "This phone number is already registered."⟩, store)
      else
        (⟨200, RespBody.contact ⟨c.id, normName name, normEmail email, normPhone phone, c.createdAt, now⟩⟩,
          store.map (fun d =>
            if d.id == id then ⟨d.id, normName name, normEmail email, normPhone phone, d.createdAt, now⟩
            else d))

/-- DELETE /api/contacts/:id: the identifier cast of findByIdAndDelete
(a cast failure reaches the generic catch, hence 500), then the lookup
of the target, then the hard delete. -/
def deleteContact (store : Store) (id : String) : Response × Store :=
  if !(isValidObjectId id) then
    (⟨500, RespBody.message "Error deleting contact"⟩, store)
  else
    match store.find? (fun c => c.id == id) with
    | none => (⟨404, RespBody.message "Contact not found"⟩, store)
    | some _ =>
      (⟨200, RespBody.message "Contact deleted successfully"⟩,
        store.eraseP (fun c => c.id == id))

/-- The store states reachable from the empty collection by the three
mutating routes.  The store assigns to each created document a fresh
identifier of valid ObjectId syntax. -/
inductive Reachable : Store → Prop where
  | init : Reachable []
  | create (s : Store) (now : Nat) (nid : String) (n e p : Option String)
      (hs : Reachable s) (hv : isValidObjectId nid = true)
      (hf : (s.all fun c => !(c.id == nid)) = true) :
      Reachable (createContact s now nid n e p).2
  | update (s : Store) (now : Nat) (id : String) (n e p : Option String)
      (hs : Reachable s) : Reachable (updateContact s now id n e p).2
  | delete (s : Store) (id : String) (hs : Reachable s) :
      Reachable (deleteContact s id).2

/-- The shape required of an email by the specification: a full
decomposition into non-empty local part, at sign, non-empty domain,
dot, non-empty tail, with no constraint on the characters of the
parts. -/
def emailShapeSpec (s : String) : Prop :=
  ∃ a b c : String, a ≠ "" ∧ b ≠ "" ∧ c ≠ "" ∧ s = a ++ "@" ++ b ++ "." ++ c

/-- The shape actually accepted by the email regular expression: a
dot-matchable character, an at sign, a non-empty run of dot-matchable
characters, a dot and a dot-matchable character occur consecutively
somewhere in the string. -/
def emailShapeJS (s : String) : Prop :=
  ∃ (x : List Char) (a : Char) (b : List Char) (c : Char) (y : List Char),
    s.data = x ++ a :: '@' :: (b ++ '.' :: c :: y) ∧
    dotMatch a = true ∧ b ≠ [] ∧ (∀ ch ∈ b, dotMatch ch = true) ∧ dotMatch c = true

/-- The phone-uniqueness store invariant, strengthened with identifier
uniqueness (the store never hands out a duplicate ObjectId). -/
def StoreInv (s : Store) : Prop :=
  s.Pairwise (fun a b => a.id ≠ b.id ∧ a.phone ≠ b.phone)

/-- A demonstration contact used in concrete instances. -/
def contactA : Contact :=
  ⟨"aaaaaaaaaaaaaaaaaaaaaaaa", "Bob", "bob@mail.com", "0123456789", 1, 2⟩

/-- A second demonstration contact with a distinct phone. -/
def contactB : Contact :=
  ⟨"bbbbbbbbbbbbbbbbbbbbbbbb", "Carol", "carol@mail.net", "5550001111", 3, 4⟩

/-- Demonstration contact named charlie. -/
def demoCharlie : Contact :=
  ⟨"dddddddddddddddddddddddd", "charlie", "ch@mail.com", "1112223333", 0, 0⟩

/-- Demonstration contact named Alice. -/
def demoAlice : Contact :=
  ⟨"eeeeeeeeeeeeeeeeeeeeeeee", "Alice", "al@mail.com", "2223334444", 0, 0⟩

/-- Demonstration contact named bob. -/
def demoBob : Contact :=
  ⟨"ffffffffffffffffffffffff", "bob", "bo@mail.com", "3334445555", 0, 0⟩

/-- Demonstration store whose names are charlie, Alice, bob in that
order. -/
def demoStore : Store :=
  [demoCharlie, demoAlice, demoBob]


/-- C5: a create or update request with a missing or empty name, email
or phone is answered 400 with the required-fields message of the
handler, with the store untouched, before any format validation or
store write. -/
theorem c5_required_fields (s : Store) (now : Nat) (nid id : String)
    (n e p : Option String)
    (h : jsPresent n = false ∨ jsPresent e = false ∨ jsPresent p = false) :
    createContact s now nid n e p =
      (⟨400, RespBody.message "Name, email, and phone fields are required."⟩, s) ∧
    updateContact s now id n e p =
      (⟨400, RespBody.message "Name, email, and phone are required."⟩, s) := by
  have hb : (jsPresent n && jsPresent e && jsPresent p) = false := by
    rcases h with h | h | h <;> simp [h]
  exact ⟨by simp [createContact, hb], by simp [updateContact, hb]⟩

/-- Witness for C5 at a concrete request with an absent name and
otherwise valid fields. -/
theorem c5_required_fields_witness :
    createContact [] 0 "cccccccccccccccccccccccc" none (some "a@b.cd") (some "0123456789") =
      (⟨400, RespBody.message "Name, email, and phone fields are required."⟩, []) ∧
    updateContact [] 0 "aaaaaaaaaaaaaaaaaaaaaaaa" none (some "a@b.cd") (some "0123456789") =
      (⟨400, RespBody.message "Name, email, and phone are required."⟩, []) :=
  c5_required_fields [] 0 "cccccccccccccccccccccccc" "aaaaaaaaaaaaaaaaaaaaaaaa"
    none (some "a@b.cd") (some "0123456789") (Or.inl (by decide))

/-- C10 (amended): an update request that passes the presence check, and
any delete request, whose target identifier cannot be cast to an
ObjectId is answered 500, not 404, with the store untouched. -/
theorem c10_invalid_id_server_error (s : Store) (now : Nat) (id : String)
    (n e p : Option String)
    (hp : (jsPresent n && jsPresent e && jsPresent p) = true)
    (hid : isValidObjectId id = false) :
    updateContact s now id n e p = (⟨500, RespBody.message "Error updating contact"⟩, s) ∧
    deleteContact s id = (⟨500, RespBody.message "Error deleting contact"⟩, s) := by
  exact ⟨by simp [updateContact, hp, hid], by simp [deleteContact, hid]⟩

/-- Witness for C10 at a concrete request with the invalid identifier
x. -/
theorem c10_invalid_id_server_error_witness :
    updateContact [contactA] 0 "x" (some "Al") (some "a@b.cd") (some "9876543210") =
      (⟨500, RespBody.message "Error updating contact"⟩, [contactA]) ∧
    deleteContact [contactA] "x" = (⟨500, RespBody.message "Error deleting contact"⟩, [contactA]) :=
  c10_invalid_id_server_error [contactA] 0 "x" (some "Al") (some "a@b.cd") (some "9876543210")
    (by decide) (by decide)

/-- Counterexample to C10 as stated: an update request with the invalid
identifier x and a missing name is answered 400 by the presence check,
not 500. -/
theorem c10_invalid_id_counterexample :
    (updateContact [] 0 "x" none (some "a@b.cd") (some "0123456789")).1.status = 400 ∧
    isValidObjectId "x" = false := by decide

/-- C8 (amended): an update request passing the presence and format
checks, and any delete request, whose target identifier has valid
ObjectId syntax but identifies no stored contact, is answered 404 with
the store untouched. -/
theorem c8_not_found (s : Store) (now : Nat) (id : String) (n e p : Option String)
    (hid : isValidObjectId id = true)
    (habs : (s.all fun c => !(c.id == id)) = true) :
    ((jsPresent n && jsPresent e && jsPresent p) = true →
      (nameOk (normName n) && emailOk (normEmail e) && phoneOk (normPhone p)) = true →
      updateContact s now id n e p = (⟨404, RespBody.message "Contact not found"⟩, s)) ∧
    deleteContact s id = (⟨404, RespBody.message "Contact not found"⟩, s) := by
  have hfind : s.find? (fun c => c.id == id) = none := by
    apply List.find?_eq_none.mpr
    intro c hc
    have hcc := List.all_eq_true.mp habs c hc
    simpa using hcc
  constructor
  · intro hp hv
    simp [updateContact, hp, hid, hv, hfind]
  · simp [deleteContact, hid, hfind]

/-- Witness for C8 at a concrete valid absent identifier. -/
theorem c8_not_found_witness :
    updateContact [contactA] 7 "bbbbbbbbbbbbbbbbbbbbbbbb" (some "Al") (some "a@b.cd") (some "9876543210") =
      (⟨404, RespBody.message "Contact not found"⟩, [contactA]) ∧
    deleteContact [contactA] "bbbbbbbbbbbbbbbbbbbbbbbb" =
      (⟨404, RespBody.message "Contact not found"⟩, [contactA]) := by
  have h := c8_not_found [contactA] 7 "bbbbbbbbbbbbbbbbbbbbbbbb"
    (some "Al") (some "a@b.cd") (some "9876543210") (by decide) (by decide)
  exact ⟨h.1 (by decide) (by decide), h.2⟩

/-- Counterexample to C8 as stated: the identifier x identifies no
stored contact, yet the delete route answers 500, not 404. -/
theorem c8_not_found_counterexample :
    (deleteContact [contactA] "x").1.status = 500 ∧
    ¬ (deleteContact [contactA] "x").1.status = 404 ∧
    ([contactA].all fun c => !(c.id == "x")) = true := by decide

/-- C3 (amended): a create request passing the presence and format
checks whose stored phone value equals the phone of a stored contact is
answered 409 with the duplicate-phone message and the store untouched;
an update request passing the presence and format checks whose valid
target identifier is stored and whose stored phone value equals the
phone of a stored contact with a different identifier is answered the
same way. -/
theorem c3_duplicate_phone (s : Store) (now : Nat) (nid id : String) (n e p : Option String)
    (hp : (jsPresent n && jsPresent e && jsPresent p) = true)
    (hv : (nameOk (normName n) && emailOk (normEmail e) && phoneOk (normPhone p)) = true) :
    ((s.any fun c => c.phone == normPhone p) = true →
      createContact s now nid n e p =
        (⟨409, RespBody.message "This phone number is already registered."⟩, s)) ∧
    (isValidObjectId id = true →
      (∃ c, s.find? (fun d => d.id == id) = some c) →
      (s.any fun d => d.phone == normPhone p && !(d.id == id)) = true →
      updateContact s now id n e p =
        (⟨409, RespBody.message "This phone number is already registered."⟩, s)) := by
  constructor
  · intro hdup
    simp [createContact, hp, hv, hdup]
  · intro hid hex hdup
    obtain ⟨c, hfind⟩ := hex
    simp [updateContact, hp, hid, hv, hfind, hdup]

/-- Witness for C3: creating a third contact with the phone of the
first, and moving the phone of the first onto the second, both answer
409. -/
theorem c3_duplicate_phone_witness :
    createContact [contactA, contactB] 9 "cccccccccccccccccccccccc"
      (some "Zed") (some "z@z.zz") (some "0123456789") =
      (⟨409, RespBody.message "This phone number is already registered."⟩, [contactA, contactB]) ∧
    updateContact [contactA, contactB] 9 "bbbbbbbbbbbbbbbbbbbbbbbb"
      (some "Zed") (some "z@z.zz") (some "0123456789") =
      (⟨409, RespBody.message "This phone number is already registered."⟩, [contactA, contactB]) := by
  have h := c3_duplicate_phone [contactA, contactB] 9 "cccccccccccccccccccccccc"
    "bbbbbbbbbbbbbbbbbbbbbbbb" (some "Zed") (some "z@z.zz") (some "0123456789")
    (by decide) (by decide)
  exact ⟨h.1 (by decide), h.2 (by decide) ⟨contactB, by decide⟩ (by decide)⟩

/-- Counterexample to C3 as stated: a create request whose phone equals
the stored phone of contactA but whose name is missing is answered 400
by the presence check, not 409. -/
theorem c3_duplicate_phone_counterexample :
    (createContact [contactA] 0 "cccccccccccccccccccccccc" none (some "z@z.zz")
      (some "0123456789")).1 =
      ⟨400, RespBody.message "Name, email, and phone fields are required."⟩ ∧
    ([contactA].any fun c => c.phone == "0123456789") = true := by decide

/-- C2 (amended): a successful create answers 201 with a contact whose
name is the trimmed input name, whose email is the trimmed and
lower-cased input email and whose phone is the trimmed input phone, and
that contact is stored; equality with the raw input therefore holds
exactly when the input is already in this normal form. -/
theorem c2_create_roundtrip (s : Store) (now : Nat) (nid : String)
    (n e p : Option String) (c : Contact) (s2 : Store)
    (h : createContact s now nid n e p = (⟨201, RespBody.contact c⟩, s2)) :
    c.name = normName n ∧ c.email = normEmail e ∧ c.phone = normPhone p ∧ c ∈ s2 := by
  unfold createContact at h
  split at h
  · simp at h
  · split at h
    · simp at h
    · split at h
      · simp at h
      · simp only [Prod.mk.injEq, Response.mk.injEq, RespBody.contact.injEq] at h
        obtain ⟨⟨-, hc⟩, hs⟩ := h
        subst hc
        subst hs
        refine ⟨rfl, rfl, rfl, ?_⟩
        simp

/-- Witness for C2 at a concrete create with surrounding whitespace and
mixed case in the input. -/
theorem c2_create_roundtrip_witness :
    (⟨"cccccccccccccccccccccccc", "Bob", "bob@mail.com", "0123456789", 5, 5⟩ : Contact).name =
      normName (some " Bob ") ∧
    (⟨"cccccccccccccccccccccccc", "Bob", "bob@mail.com", "0123456789", 5, 5⟩ : Contact).email =
      normEmail (some " Bob@Mail.COM ") ∧
    (⟨"cccccccccccccccccccccccc", "Bob", "bob@mail.com", "0123456789", 5, 5⟩ : Contact).phone =
      normPhone (some " 0123456789 ") ∧
    (⟨"cccccccccccccccccccccccc", "Bob", "bob@mail.com", "0123456789", 5, 5⟩ : Contact) ∈
      ([⟨"cccccccccccccccccccccccc", "Bob", "bob@mail.com", "0123456789", 5, 5⟩] : Store) :=
  c2_create_roundtrip [] 5 "cccccccccccccccccccccccc"
    (some " Bob ") (some " Bob@Mail.COM ") (some " 0123456789 ")
    ⟨"cccccccccccccccccccccccc", "Bob", "bob@mail.com", "0123456789", 5, 5⟩
    [⟨"cccccccccccccccccccccccc", "Bob", "bob@mail.com", "0123456789", 5, 5⟩]
    (by decide)

/-- Counterexample to C2 as stated: the accepted input email
Bob@Mail.com is read back lower-cased, so the round trip is not an
equality on all inputs. -/
theorem c2_roundtrip_counterexample :
    (createContact [] 0 "cccccccccccccccccccccccc" (some "Bob") (some "Bob@Mail.com")
      (some "0123456789")).1 =
      ⟨201, RespBody.contact
        ⟨"cccccccccccccccccccccccc", "Bob", "bob@mail.com", "0123456789", 0, 0⟩⟩ ∧
    ¬ ("bob@mail.com" : String) = "Bob@Mail.com" := by decide

/-- C9: a successful update leaves the identifier and creation
timestamp of the target untouched, refreshes updatedAt to the operation
time, replaces exactly name, email and phone, and leaves every other
stored contact unchanged. -/
theorem c9_update_frame (s : Store) (now : Nat) (id : String)
    (n e p : Option String) (c2 : Contact) (s2 : Store)
    (h : updateContact s now id n e p = (⟨200, RespBody.contact c2⟩, s2)) :
    ∃ c, s.find? (fun d => d.id == id) = some c ∧ c ∈ s ∧
      c2.id = c.id ∧ c2.createdAt = c.createdAt ∧ c2.updatedAt = now ∧
      c2.name = normName n ∧ c2.email = normEmail e ∧ c2.phone = normPhone p ∧
      s2 = s.map (fun d => if d.id == id then
        ⟨d.id, normName n, normEmail e, normPhone p, d.createdAt, now⟩ else d) := by
  unfold updateContact at h
  split at h
  · simp at h
  · split at h
    · simp at h
    · split at h
      · simp at h
      · split at h
        · simp at h
        · next c hfind =>
          split at h
          · simp at h
          · simp only [Prod.mk.injEq, Response.mk.injEq, RespBody.contact.injEq] at h
            obtain ⟨⟨-, hc⟩, hs⟩ := h
            subst hc
            subst hs
            exact ⟨c, hfind, List.mem_of_find?_eq_some hfind, rfl, rfl, rfl, rfl, rfl, rfl, rfl⟩

/-- Witness for C9 at a concrete successful update of contactA keeping
its own phone. -/
theorem c9_update_frame_witness :
    ∃ c, ([contactA].find? (fun d => d.id == "aaaaaaaaaaaaaaaaaaaaaaaa")) = some c ∧
      c ∈ [contactA] ∧
      (⟨"aaaaaaaaaaaaaaaaaaaaaaaa", "Ann", "a@b.cc", "0123456789", 1, 9⟩ : Contact).id = c.id ∧
      (⟨"aaaaaaaaaaaaaaaaaaaaaaaa", "Ann", "a@b.cc", "0123456789", 1, 9⟩ : Contact).createdAt = c.createdAt ∧
      (⟨"aaaaaaaaaaaaaaaaaaaaaaaa", "Ann", "a@b.cc", "0123456789", 1, 9⟩ : Contact).updatedAt = 9 ∧
      (⟨"aaaaaaaaaaaaaaaaaaaaaaaa", "Ann", "a@b.cc", "0123456789", 1, 9⟩ : Contact).name =
        normName (some " Ann ") ∧
      (⟨"aaaaaaaaaaaaaaaaaaaaaaaa", "Ann", "a@b.cc", "0123456789", 1, 9⟩ : Contact).email =
        normEmail (some "A@B.CC") ∧
      (⟨"aaaaaaaaaaaaaaaaaaaaaaaa", "Ann", "a@b.cc", "0123456789", 1, 9⟩ : Contact).phone =
        normPhone (some "0123456789") ∧
      ([⟨"aaaaaaaaaaaaaaaaaaaaaaaa", "Ann", "a@b.cc", "0123456789", 1, 9⟩] : Store) =
        [contactA].map (fun d => if d.id == "aaaaaaaaaaaaaaaaaaaaaaaa" then
          ⟨d.id, normName (some " Ann "), normEmail (some "A@B.CC"),
            normPhone (some "0123456789"), d.createdAt, 9⟩ else d) :=
  c9_update_frame [contactA] 9 "aaaaaaaaaaaaaaaaaaaaaaaa"
    (some " Ann ") (some "A@B.CC") (some "0123456789")
    ⟨"aaaaaaaaaaaaaaaaaaaaaaaa", "Ann", "a@b.cc", "0123456789", 1, 9⟩
    [⟨"aaaaaaaaaaaaaaaaaaaaaaaa", "Ann", "a@b.cc", "0123456789", 1, 9⟩]
    (by decide)

/-- A passing all-check on identifiers gives pointwise disequality. -/
theorem all_id_ne {s : Store} {nid : String}
    (hf : (s.all fun c => !(c.id == nid)) = true) :
    ∀ c ∈ s, c.id ≠ nid := by
  intro c hc
  have h := List.all_eq_true.mp hf c hc
  simpa using h

/-- A failing any-check on phones gives pointwise disequality. -/
theorem any_phone_false {s : Store} {ph : String}
    (h : ¬ ((s.any fun c => c.phone == ph) = true)) :
    ∀ c ∈ s, c.phone ≠ ph := by
  intro c hc heq
  exact h (List.any_eq_true.mpr ⟨c, hc, by simp [heq]⟩)

/-- A failing any-check on phones of other documents gives pointwise
disequality away from the target identifier. -/
theorem any_phone_other_false {s : Store} {ph id : String}
    (h : ¬ ((s.any fun d => d.phone == ph && !(d.id == id)) = true)) :
    ∀ d ∈ s, d.id ≠ id → d.phone ≠ ph := by
  intro d hd hne heq
  exact h (List.any_eq_true.mpr ⟨d, hd, by simp [heq, hne]⟩)

/-- The create route preserves the store invariant when the store
assigns a fresh identifier. -/
theorem storeInv_create (s : Store) (now : Nat) (nid : String) (n e p : Option String)
    (hinv : StoreInv s) (hf : (s.all fun c => !(c.id == nid)) = true) :
    StoreInv (createContact s now nid n e p).2 := by
  unfold createContact
  split
  · exact hinv
  split
  · exact hinv
  split
  · exact hinv
  next hany =>
  show StoreInv (s ++ [⟨nid, normName n, normEmail e, normPhone p, now, now⟩])
  apply List.pairwise_append.mpr
  refine ⟨hinv, List.pairwise_singleton _ _, ?_⟩
  intro a ha b hb
  simp only [List.mem_singleton] at hb
  subst hb
  exact ⟨all_id_ne hf a ha, any_phone_false hany a ha⟩

/-- The update route preserves the store invariant. -/
theorem storeInv_update (s : Store) (now : Nat) (id : String) (n e p : Option String)
    (hinv : StoreInv s) : StoreInv (updateContact s now id n e p).2 := by
  unfold updateContact
  split
  · exact hinv
  split
  · exact hinv
  split
  · exact hinv
  split
  · exact hinv
  split
  · exact hinv
  next hany =>
  show StoreInv (s.map _)
  unfold StoreInv
  rw [List.pairwise_map]
  refine List.Pairwise.imp_of_mem ?_ hinv
  intro a b ha hb hab
  obtain ⟨hid, hph⟩ := hab
  by_cases h1 : a.id = id <;> by_cases h2 : b.id = id
  · exact absurd (h1.trans h2.symm) hid
  · have e1 : (a.id == id) = true := by simp [h1]
    have e2 : (b.id == id) = false := by simp [h2]
    simp only [e1, e2, if_true, if_false, Bool.false_eq_true, ite_true, ite_false]
    exact ⟨hid, fun hc => (any_phone_other_false hany b hb h2) hc.symm⟩
  · have e1 : (a.id == id) = false := by simp [h1]
    have e2 : (b.id == id) = true := by simp [h2]
    simp only [e1, e2, if_true, if_false, Bool.false_eq_true, ite_true, ite_false]
    exact ⟨hid, fun hc => (any_phone_other_false hany a ha h1) hc⟩
  · have e1 : (a.id == id) = false := by simp [h1]
    have e2 : (b.id == id) = false := by simp [h2]
    simp only [e1, e2, if_false, Bool.false_eq_true, ite_false]
    exact ⟨hid, hph⟩

/-- The delete route preserves the store invariant. -/
theorem storeInv_delete (s : Store) (id : String) (hinv : StoreInv s) :
    StoreInv (deleteContact s id).2 := by
  unfold deleteContact
  split
  · exact hinv
  split
  · exact hinv
  · exact List.Pairwise.sublist (List.eraseP_sublist _) hinv

/-- Every reachable store satisfies the strengthened invariant. -/
theorem storeInv_reachable (s : Store) (h : Reachable s) : StoreInv s := by
  induction h with
  | init => exact List.Pairwise.nil
  | create s now nid n e p hs hv hf ih => exact storeInv_create s now nid n e p ih hf
  | update s now id n e p hs ih => exact storeInv_update s now id n e p ih
  | delete s id hs ih => exact storeInv_delete s id ih

/-- C4: in every reachable store state no two persisted contacts share
a phone value. -/
theorem c4_phone_unique (s : Store) (h : Reachable s) :
    s.Pairwise (fun a b => a.phone ≠ b.phone) :=
  (storeInv_reachable s h).imp (fun hab => hab.2)

/-- Witness for C4 at the store reached by one successful create. -/
theorem c4_phone_unique_witness :
    ((createContact [] 0 "aaaaaaaaaaaaaaaaaaaaaaaa"
        (some "Bob") (some "b@c.de") (some "0123456789")).2).Pairwise
      (fun a b => a.phone ≠ b.phone) :=
  c4_phone_unique _
    (Reachable.create [] 0 "aaaaaaaaaaaaaaaaaaaaaaaa"
      (some "Bob") (some "b@c.de") (some "0123456789")
      Reachable.init (by decide) (by decide))

/-- The collation key order is total. -/
theorem keyLe_total : ∀ a b : List Nat, keyLe a b = true ∨ keyLe b a = true := by
  intro a
  induction a with
  | nil => intro b; left; rfl
  | cons x xs ih =>
    intro b
    cases b with
    | nil => right; rfl
    | cons y ys =>
      rcases Nat.lt_trichotomy x y with h | h | h
      · left
        simp [keyLe]
        exact Or.inl h
      · subst h
        rcases ih ys with h2 | h2
        · left
          simp [keyLe, h2]
        · right
          simp [keyLe, h2]
      · right
        simp [keyLe]
        exact Or.inl h

/-- The collation key order is transitive. -/
theorem keyLe_trans : ∀ a b c : List Nat,
    keyLe a b = true → keyLe b c = true → keyLe a c = true := by
  intro a
  induction a with
  | nil => intro b c _ _; rfl
  | cons x xs ih =>
    intro b c hab hbc
    cases b with
    | nil => simp [keyLe] at hab
    | cons y ys =>
      cases c with
      | nil => simp [keyLe] at hbc
      | cons z zs =>
        simp only [keyLe, Bool.or_eq_true, Bool.and_eq_true, decide_eq_true_eq,
          beq_iff_eq] at hab hbc ⊢
        rcases hab with h1 | ⟨rfl, h1⟩
        · rcases hbc with h2 | ⟨rfl, h2⟩
          · exact Or.inl (Nat.lt_trans h1 h2)
          · exact Or.inl h1
        · rcases hbc with h2 | ⟨rfl, h2⟩
          · exact Or.inl h2
          · exact Or.inr ⟨rfl, ih ys zs h1 h2⟩

/-- The name order of the collation sort is total. -/
theorem nameLe_total (a b : Contact) : nameLe a b = true ∨ nameLe b a = true :=
  keyLe_total _ _

/-- The name order of the collation sort is transitive. -/
theorem nameLe_trans {a b c : Contact} :
    nameLe a b = true → nameLe b c = true → nameLe a c = true :=
  keyLe_trans _ _ _

/-- Membership through ordered insertion. -/
theorem mem_insertCI {a c : Contact} {l : List Contact} :
    a ∈ insertCI c l ↔ a = c ∨ a ∈ l := by
  induction l with
  | nil => simp [insertCI]
  | cons d ds ih =>
    by_cases h : nameLe c d = true
    · simp only [insertCI, if_pos h, List.mem_cons]
    · simp only [insertCI, if_neg h, List.mem_cons, ih]
      tauto

/-- Ordered insertion preserves sortedness. -/
theorem pairwise_insertCI {c : Contact} {l : List Contact}
    (hl : l.Pairwise (fun a b => nameLe a b = true)) :
    (insertCI c l).Pairwise (fun a b => nameLe a b = true) := by
  induction l with
  | nil => simp [insertCI]
  | cons d ds ih =>
    rcases List.pairwise_cons.mp hl with ⟨hd, hds⟩
    by_cases h : nameLe c d = true
    · rw [insertCI, if_pos h]
      apply List.pairwise_cons.mpr
      refine ⟨?_, hl⟩
      intro b hb
      rcases List.mem_cons.mp hb with rfl | hb
      · exact h
      · exact nameLe_trans h (hd b hb)
    · rw [insertCI, if_neg h]
      apply List.pairwise_cons.mpr
      refine ⟨?_, ih hds⟩
      intro b hb
      rcases mem_insertCI.mp hb with rfl | hb
      · rcases nameLe_total b d with h1 | h1
        · exact absurd h1 h
        · exact h1
      · exact hd b hb

/-- The collation sort yields a list sorted by the name order. -/
theorem pairwise_sortCI (l : List Contact) :
    (sortCI l).Pairwise (fun a b => nameLe a b = true) := by
  induction l with
  | nil => exact List.Pairwise.nil
  | cons c cs ih => exact pairwise_insertCI ih

/-- Membership through the collation sort. -/
theorem mem_sortCI {a : Contact} {l : List Contact} : a ∈ sortCI l ↔ a ∈ l := by
  induction l with
  | nil => simp [sortCI]
  | cons c cs ih =>
    simp [sortCI, mem_insertCI, ih]

/-- C6: every list response is ordered by name ascending under the
case-insensitive collation order, and on the stored names charlie,
Alice, bob the returned order is Alice, bob, charlie. -/
theorem c6_list_ordering :
    (∀ (store : Store) (q : Option String),
      (respContacts (listContacts store q)).Pairwise (fun a b => nameLe a b = true)) ∧
    (respContacts (listContacts demoStore none)).map (fun c => c.name) =
      ["Alice", "bob", "charlie"] := by
  constructor
  · intro store q
    exact pairwise_sortCI _
  · decide

/-- On metacharacter-free patterns, anchored matching is prefix
equality of the lower-cased character lists. -/
theorem matchesAt_plain : ∀ (pat subj : List Char), (∀ c ∈ pat, metaChar c = false) →
    (matchesAt pat subj = true ↔ ∃ y, lowerL subj = lowerL pat ++ y) := by
  intro pat
  induction pat with
  | nil =>
    intro subj _
    simp [matchesAt, lowerL]
  | cons p ps ih =>
    intro subj hmeta
    have hp : ¬ p = '.' := by
      have h := hmeta p (List.mem_cons_self _ _)
      simp [metaChar] at h
      tauto
    have hps : ∀ c ∈ ps, metaChar c = false := fun c hc => hmeta c (List.mem_cons_of_mem _ hc)
    cases subj with
    | nil =>
      simp [matchesAt, lowerL]
    | cons c cs =>
      have hcm : charMatches p c = (p.toLower == c.toLower) := by
        rw [charMatches, if_neg]
        simp [hp]
      constructor
      · intro h
        simp only [matchesAt, hcm, Bool.and_eq_true, beq_iff_eq] at h
        obtain ⟨h1, h2⟩ := h
        obtain ⟨y, hy⟩ := (ih cs hps).mp h2
        refine ⟨y, ?_⟩
        simp only [lowerL, List.map_cons, List.cons_append] at hy ⊢
        exact List.cons_eq_cons.mpr ⟨h1.symm, hy⟩
      · intro h
        obtain ⟨y, hy⟩ := h
        simp only [lowerL, List.map_cons, List.cons_append, List.cons_eq_cons] at hy
        simp only [matchesAt, hcm, Bool.and_eq_true, beq_iff_eq]
        exact ⟨hy.1.symm, (ih cs hps).mpr ⟨y, hy.2⟩⟩

/-- On metacharacter-free patterns, the unanchored search is substring
containment of the lower-cased character lists. -/
theorem regexSearch_plain : ∀ (subj pat : List Char), (∀ c ∈ pat, metaChar c = false) →
    (regexSearch pat subj = true ↔ ∃ x y, lowerL subj = x ++ lowerL pat ++ y) := by
  intro subj
  induction subj with
  | nil =>
    intro pat hmeta
    rw [regexSearch, matchesAt_plain pat [] hmeta]
    constructor
    · intro h
      obtain ⟨y, hy⟩ := h
      exact ⟨[], y, by simpa using hy⟩
    · intro h
      obtain ⟨x, y, hy⟩ := h
      have hx : (x ++ lowerL pat) ++ y = [] := by
        simpa [lowerL] using hy.symm
      have hpat : lowerL pat = [] := (List.append_eq_nil.mp (List.append_eq_nil.mp hx).1).2
      have hpat2 : pat = [] := by simpa [lowerL] using hpat
      subst hpat2
      exact ⟨[], rfl⟩
  | cons c cs ih =>
    intro pat hmeta
    rw [regexSearch]
    constructor
    · intro h
      rcases Bool.or_eq_true_iff.mp h with h1 | h1
      · obtain ⟨y, hy⟩ := (matchesAt_plain pat (c :: cs) hmeta).mp h1
        exact ⟨[], y, by simpa using hy⟩
      · obtain ⟨x, y, hy⟩ := (ih pat hmeta).mp h1
        refine ⟨c.toLower :: x, y, ?_⟩
        simp only [lowerL, List.map_cons, List.cons_append, List.cons_eq_cons] at hy ⊢
        exact ⟨trivial, hy⟩
    · intro h
      obtain ⟨x, y, hy⟩ := h
      refine Bool.or_eq_true_iff.mpr ?_
      cases x with
      | nil =>
        exact Or.inl ((matchesAt_plain pat (c :: cs) hmeta).mpr ⟨y, by simpa using hy⟩)
      | cons x0 xs =>
        simp only [lowerL, List.map_cons, List.cons_append, List.cons_eq_cons] at hy
        exact Or.inr ((ih pat hmeta).mpr ⟨xs, y, hy.2⟩)

/-- C1 (amended): for a present, non-empty search string free of
regular-expression metacharacters, the list response contains exactly
the stored contacts whose lower-cased name contains the lower-cased
search string as a substring; with the search parameter absent it
contains exactly the stored contacts.  (The code interprets the search
string as a case-insensitive regular expression, so for general search
strings the substring reading fails.) -/
theorem c1_search_listing (store : Store) (s : String) (ct : Contact)
    (hne : ¬ s = "") (hplain : ∀ c ∈ s.data, metaChar c = false) :
    (ct ∈ respContacts (listContacts store (some s)) ↔
      ct ∈ store ∧ ∃ x y, lowerL ct.name.data = x ++ lowerL s.data ++ y) ∧
    (ct ∈ respContacts (listContacts store none) ↔ ct ∈ store) := by
  constructor
  · have hs : (s == "") = false := by simp [hne]
    have hmem : ct ∈ respContacts (listContacts store (some s)) ↔
        ct ∈ store ∧ regexSearch s.data ct.name.data = true := by
      show ct ∈ sortCI (searchFilter store (some s)) ↔ _
      rw [mem_sortCI]
      simp only [searchFilter, hs, Bool.false_eq_true, if_false, ite_false]
      exact List.mem_filter
    rw [hmem, regexSearch_plain ct.name.data s.data hplain]
  · show ct ∈ sortCI store ↔ ct ∈ store
    exact mem_sortCI

/-- Witness for C1: searching bob in the demonstration store returns
the contact named bob. -/
theorem c1_search_listing_witness :
    demoBob ∈ respContacts (listContacts demoStore (some "bob")) :=
  ((c1_search_listing demoStore "bob" demoBob (by decide) (by decide)).1).mpr
    ⟨by decide, [], [], by decide⟩

/-- Counterexample to C1 as stated: with the search string consisting
of a single dot, the response contains the contact named Alice although
that name has no dot: the code matches the search string as a regular
expression, not as a literal substring. -/
theorem c1_search_counterexample :
    demoAlice ∈ respContacts (listContacts [demoAlice] (some ".")) ∧
    ¬ ∃ x y, lowerL demoAlice.name.data = x ++ lowerL ".".data ++ y := by
  constructor
  · decide
  · rintro ⟨x, y, h⟩
    have hd : lowerL ".".data = ['.'] := by decide
    rw [hd] at h
    have hm : '.' ∈ lowerL demoAlice.name.data := by
      rw [h]
      simp
    exact absurd hm (by decide)

/-- Characterization of the dotTail scanner as a decomposition. -/
theorem dotTail_iff : ∀ l : List Char, dotTail l = true ↔
    ∃ b c y, l = b ++ '.' :: c :: y ∧ (∀ ch ∈ b, dotMatch ch = true) ∧ dotMatch c = true := by
  intro l
  induction l with
  | nil =>
    constructor
    · intro h
      simp [dotTail] at h
    · rintro ⟨b, c, y, heq, -, -⟩
      cases b <;> simp at heq
  | cons ch rest ih =>
    constructor
    · intro h
      have h2 : (ch = '.' ∧ headDot rest = true) ∨
          (dotMatch ch = true ∧ dotTail rest = true) := by
        simpa [dotTail] using h
      rcases h2 with ⟨hch, hhd⟩ | ⟨hd, ht⟩
      · subst hch
        cases rest with
        | nil => simp [headDot] at hhd
        | cons c y =>
          have hc : dotMatch c = true := by simpa [headDot] using hhd
          exact ⟨[], c, y, rfl, by simp, hc⟩
      · obtain ⟨b, c, y, heq, hb, hc⟩ := ih.mp ht
        refine ⟨ch :: b, c, y, by simp [heq], ?_, hc⟩
        intro x hx
        rcases List.mem_cons.mp hx with rfl | hx
        · exact hd
        · exact hb x hx
    · rintro ⟨b, c, y, heq, hb, hc⟩
      cases b with
      | nil =>
        simp only [List.nil_append, List.cons_eq_cons] at heq
        obtain ⟨h1, h2⟩ := heq
        subst h1
        subst h2
        simp [dotTail, headDot, hc]
      | cons b0 bs =>
        simp only [List.cons_append, List.cons_eq_cons] at heq
        obtain ⟨h1, h2⟩ := heq
        subst h1
        have hrest : dotTail rest = true :=
          ih.mpr ⟨bs, c, y, h2, fun x hx => hb x (List.mem_cons_of_mem _ hx), hc⟩
        simp [dotTail, hrest, hb ch (List.mem_cons_self _ _)]

/-- Characterization of the midScan scanner as a decomposition. -/
theorem midScan_iff (l : List Char) : midScan l = true ↔
    ∃ b c y, l = b ++ '.' :: c :: y ∧ b ≠ [] ∧ (∀ ch ∈ b, dotMatch ch = true) ∧
      dotMatch c = true := by
  cases l with
  | nil =>
    constructor
    · intro h
      simp [midScan] at h
    · rintro ⟨b, c, y, heq, hbne, -, -⟩
      cases b with
      | nil => exact absurd rfl hbne
      | cons b0 bs => simp at heq
  | cons ch rest =>
    constructor
    · intro h
      have h2 : dotMatch ch = true ∧ dotTail rest = true := by
        simpa [midScan] using h
      obtain ⟨hd, ht⟩ := h2
      obtain ⟨b, c, y, heq, hb, hc⟩ := (dotTail_iff rest).mp ht
      refine ⟨ch :: b, c, y, by simp [heq], by simp, ?_, hc⟩
      intro x hx
      rcases List.mem_cons.mp hx with rfl | hx
      · exact hd
      · exact hb x hx
    · rintro ⟨b, c, y, heq, hbne, hb, hc⟩
      cases b with
      | nil => exact absurd rfl hbne
      | cons b0 bs =>
        simp only [List.cons_append, List.cons_eq_cons] at heq
        obtain ⟨h1, h2⟩ := heq
        subst h1
        have hrest : dotTail rest = true :=
          (dotTail_iff rest).mpr
            ⟨bs, c, y, h2, fun x hx => hb x (List.mem_cons_of_mem _ hx), hc⟩
        simp [midScan, hrest, hb ch (List.mem_cons_self _ _)]

/-- Characterization of the atScan scanner as a decomposition. -/
theorem atScan_iff : ∀ l : List Char, atScan l = true ↔
    ∃ x a m, l = x ++ a :: '@' :: m ∧ dotMatch a = true ∧ midScan m = true := by
  intro l
  induction l with
  | nil =>
    constructor
    · intro h
      simp [atScan] at h
    · rintro ⟨x, a, m, heq, -, -⟩
      cases x <;> simp at heq
  | cons ch rest ih =>
    constructor
    · intro h
      have h2 : (dotMatch ch = true ∧ headAt rest = true) ∨ atScan rest = true := by
        simpa [atScan] using h
      rcases h2 with ⟨hd, hha⟩ | h1
      · cases rest with
        | nil => simp [headAt] at hha
        | cons r0 rs =>
          have h3 : r0 = '@' ∧ midScan rs = true := by
            simpa [headAt] using hha
          obtain ⟨hr, hmid⟩ := h3
          subst hr
          exact ⟨[], ch, rs, rfl, hd, hmid⟩
      · obtain ⟨x, a, m, heq, ha, hm⟩ := ih.mp h1
        exact ⟨ch :: x, a, m, by simp [heq], ha, hm⟩
    · rintro ⟨x, a, m, heq, ha, hm⟩
      cases x with
      | nil =>
        simp only [List.nil_append, List.cons_eq_cons] at heq
        obtain ⟨h1, h2⟩ := heq
        subst h1
        subst h2
        simp [atScan, headAt, ha, hm]
      | cons x0 xs =>
        simp only [List.cons_append, List.cons_eq_cons] at heq
        obtain ⟨h1, h2⟩ := heq
        have hrest : atScan rest = true := ih.mpr ⟨xs, a, m, h2, ha, hm⟩
        simp [atScan, hrest]

/-- The email match validator succeeds exactly on the strings of the
JavaScript email shape. -/
theorem jsEmailTest_iff (s : String) : jsEmailTest s = true ↔ emailShapeJS s := by
  rw [show jsEmailTest s = atScan s.data from rfl, atScan_iff]
  unfold emailShapeJS
  constructor
  · rintro ⟨x, a, m, heq, ha, hm⟩
    obtain ⟨b, c, y, hmeq, hbne, hb, hc⟩ := (midScan_iff m).mp hm
    subst hmeq
    exact ⟨x, a, b, c, y, heq, ha, hbne, hb, hc⟩
  · rintro ⟨x, a, b, c, y, heq, ha, hbne, hb, hc⟩
    exact ⟨x, a, b ++ '.' :: c :: y, heq, ha,
      (midScan_iff _).mpr ⟨b, c, y, rfl, hbne, hb, hc⟩⟩

/-- Lower-casing preserves emptiness. -/
theorem jsLower_eq_empty (s : String) : jsLower s = "" ↔ s = "" := by
  simp [jsLower, lowerL, String.ext_iff]

/-- Email validation fails exactly on the empty value and the values
outside the JavaScript email shape. -/
theorem emailOk_false_iff (v : String) :
    emailOk v = false ↔ (v = "" ∨ ¬ emailShapeJS v) := by
  by_cases hv : v = ""
  · simp [emailOk, hv]
  · have hbe : (v == "") = false := by simp [hv]
    simp [emailOk, hbe, hv, ← jsEmailTest_iff]

/-- C7 (amended): email validation fails exactly when the trimmed email
is empty or the trimmed, lower-cased email is outside the JavaScript
email shape, in which the part between the at sign and the dot and the
characters adjacent to them must be free of line terminators.  The
shape of the specification, with unconstrained non-empty parts, is not
equivalent: see the counterexample. -/
theorem c7_email_validation (e : String) :
    emailOk (normEmail (some e)) = false ↔
      (jsTrim e = "" ∨ ¬ emailShapeJS (jsLower (jsTrim e))) := by
  have h := emailOk_false_iff (jsLower (jsTrim e))
  rw [jsLower_eq_empty] at h
  exact h

/-- Counterexample to C7 as stated: the email ab@cd(line feed).e has
the full shape non-empty at non-empty dot non-empty demanded by the
specification, is non-empty after trimming, and yet create rejects it
with 400, because the dot of the regular expression does not match the
line feed. -/
theorem c7_email_counterexample :
    emailShapeSpec "ab@cd\n.e" ∧ jsTrim "ab@cd\n.e" ≠ "" ∧
    (createContact [] 0 "cccccccccccccccccccccccc" (some "Al") (some "ab@cd\n.e")
      (some "0123456789")).1.status = 400 := by
  refine ⟨⟨"ab", "cd\n", "e", by decide, by decide, by decide, by decide⟩, by decide, by decide⟩
